import Mathlib

/-
Verification of the request-middleware pipeline in web/middleware.go.

The Go code is shallowly embedded as pure Lean functions: each middleware
is modelled as a function from its request-relevant inputs (the values it
reads from the request context, plus the outcome of each external call it
makes) to the values it writes back (context entries, response headers and
bodies, alerts, log entries).  Go integers used as permission bitmasks are
modelled as Nat (bitwise OR cannot overflow), role positions as Int, and
fallible external calls as Option results.
-/

namespace Middleware

/-- A guild role, as read from the platform API (discordgo.Role): the
fields used by the middleware are its id, permission bitmask and rank
position. -/
structure Role where
  id : String
  permissions : Nat
  position : Int
deriving DecidableEq

/-- A (possibly partial) guild record (discordgo.Guild).  A stub carries
only id and name; the full-record upgrade fills ownerID, region and
roles in place; the channels middleware fills channels. -/
structure Guild where
  id : String
  name : String
  ownerID : String
  region : String
  roles : List Role
  channels : List String
deriving DecidableEq

/-- A membership summary entry (discordgo.UserGuild): the fields the
target-organization resolver reads. -/
structure UserGuild where
  id : String
  name : String
deriving DecidableEq

/-- The inner loop of RequireBotMemberMW that scans the bot member's
role-id list for a given role id (the `for _, mr := range member.Roles`
loop with early break). -/
def memberHasRole : List String → String → Bool
  | [], _ => false
  | mr :: rest, roleID => if mr = roleID then true else memberHasRole rest roleID

/-- One iteration of the aggregation loop of RequireBotMemberMW: if the
bot holds the role, OR its permissions into the running bitmask and
update the running highest role when this role's position is strictly
greater. -/
def botAggregateStep (memberRoles : List String) (acc : Nat × Option Role) (role : Role) : Nat × Option Role :=
  if memberHasRole memberRoles role.id then
    (acc.1 ||| role.permissions,
     match acc.2 with
     | none => some role
     | some h => if role.position > h.position then some role else some h)
  else acc

/-- The full aggregation loop of RequireBotMemberMW over the guild's
role list, starting from combinedPerms = 0 and highest = nil. -/
def botAggregate (roles : List Role) (memberRoles : List String) : Nat × Option Role :=
  roles.foldl (botAggregateStep memberRoles) (0, none)

/-- The aggregation part of RequireBotMemberMW at the context level:
when the guild's role list is empty (len(guildCast.Roles) < 1) the
middleware returns before aggregating, storing neither a permission
value nor a highest role; otherwise it stores the loop's result. -/
def RequireBotMemberAgg (roles : List Role) (memberRoles : List String) : Option (Nat × Option Role) :=
  if roles.length < 1 then none
  else some (botAggregate roles memberRoles)

/-- Spec-side definition (from the spec's words, for comparison with the
code): the bitwise OR of role.permissions over exactly those roles whose
id is contained in the bot member's role-id list. -/
def specCombinedPerms (roles : List Role) (memberRoles : List String) : Nat :=
  ((roles.filter (fun r => memberHasRole memberRoles r.id)).map Role.permissions).foldr (fun p acc => p ||| acc) 0

/-- Helper for the spec-side highest-role definition: the candidate's
position is greater than or equal to every position in the list. -/
def geAll (l : List Role) (r : Role) : Bool :=
  l.all (fun x => decide (x.position ≤ r.position))

/-- Spec-side definition (from the spec's words): the first-seen element
of the list whose position is greater than or equal to every element's
position, i.e. the first element attaining the maximal position — the
first-seen role strictly greater than all previously seen ones, with the
earlier-seen role winning on equal positions. -/
def firstMax (l : List Role) : Option Role :=
  l.find? (geAll l)

/-- The pure highest-role update of the aggregation loop, separated from
the permission component. -/
def highestStep (acc : Option Role) (role : Role) : Option Role :=
  match acc with
  | none => some role
  | some h => if role.position > h.position then some role else some h

/-- Outcome of running a middleware stage: hand the request to the inner
handler (with the value it computed), redirect with an error code, or a
runtime panic (a failed Go type assertion). -/
inductive MWOutcome (α : Type) where
  | proceed (a : α)
  | redirect (err : String)
  | goPanic (msg : String)
deriving DecidableEq

/-- The unchecked type assertion
`ctx.Value(common.ContextKeyCurrentGuild).(*discordgo.Guild)` used by
RequireGuildChannelsMiddleware and RequireFullGuildMW: when no guild was
stored under the current-guild key the assertion panics. -/
def guildTypeAssert (currentGuild : Option Guild) : MWOutcome Guild :=
  match currentGuild with
  | some g => MWOutcome.proceed g
  | none => MWOutcome.goPanic ("interface conversion on nil current guild")

/-- RequireActiveServer: redirects with err=no_active_guild when no
current guild is stored in the context, otherwise runs the inner
handler. -/
def RequireActiveServer (currentGuild : Option Guild) : MWOutcome Unit :=
  match currentGuild with
  | some _ => MWOutcome.proceed ()
  | none => MWOutcome.redirect ("no_active_guild")

/-- Whether a middleware outcome is a runtime panic. -/
def isGoPanic {α : Type} : MWOutcome α → Bool
  | MWOutcome.goPanic _ => true
  | _ => false

/-- Result of RequireFullGuildMW on an already-asserted guild: the
(possibly upgraded) guild object, whether the request proceeded to the
inner handler or was redirected, and whether a fetch was performed. -/
structure FullGuildResult where
  guild : Guild
  outcome : MWOutcome Unit
  fetched : Bool
deriving DecidableEq

/-- The body of RequireFullGuildMW after the context type assertion: if
the guild already has a populated OwnerID it is a no-op (no fetch); a
stub guild triggers a fetch (`fetchResult` is the outcome of
common.GetGuild) whose Region, OwnerID and Roles are copied into the
existing object in place; a failed fetch redirects. -/
def RequireFullGuildMW (guild : Guild) (fetchResult : Option Guild) : FullGuildResult :=
  if guild.ownerID ≠ "" then
    { guild := guild, outcome := MWOutcome.proceed (), fetched := false }
  else
    match fetchResult with
    | none =>
      { guild := guild, outcome := MWOutcome.redirect ("errretrievingguild"), fetched := true }
    | some fullGuild =>
      { guild := { guild with
                    region := fullGuild.region
                    ownerID := fullGuild.ownerID
                    roles := fullGuild.roles },
        outcome := MWOutcome.proceed (), fetched := true }

/-- RequireFullGuildMW from the raw context value, including the
unchecked type assertion it begins with. -/
def RequireFullGuildMWentry (currentGuild : Option Guild) (fetchResult : Option Guild) : MWOutcome FullGuildResult :=
  match guildTypeAssert currentGuild with
  | MWOutcome.proceed g => MWOutcome.proceed (RequireFullGuildMW g fetchResult)
  | MWOutcome.redirect e => MWOutcome.redirect e
  | MWOutcome.goPanic m => MWOutcome.goPanic m

/-- RequireGuildChannelsMiddleware from the raw context value: it also
starts with the unchecked type assertion, then fetches the guild's
channels (`channelsResult` is the outcome of common.GetGuildChannels),
redirecting on failure and otherwise storing them on the guild object. -/
def RequireGuildChannelsMiddleware (currentGuild : Option Guild) (channelsResult : Option (List String)) : MWOutcome Guild :=
  match guildTypeAssert currentGuild with
  | MWOutcome.proceed g =>
    match channelsResult with
    | none => MWOutcome.redirect ("retrievingchannels")
    | some channels => MWOutcome.proceed { g with channels := channels }
  | MWOutcome.redirect e => MWOutcome.redirect e
  | MWOutcome.goPanic m => MWOutcome.goPanic m

/-- setFullGuild: stores the fetched full guild as the current guild on
success; on fetch failure the context is returned unchanged (no
current-guild entry is added). -/
def setFullGuild (fetchResult : Option Guild) : Option Guild :=
  match fetchResult with
  | some g => some g
  | none => none

/-- The guild stub constructed by ActiveServerMW from a membership
entry: only ID and Name are carried over, every other field is the Go
zero value. -/
def stubGuild (ug : UserGuild) : Guild :=
  { id := ug.id, name := ug.name, ownerID := "", region := "", roles := [], channels := [] }

/-- The core of ActiveServerMW, after the numeric validation of the path
parameter: with no membership list in context it falls back to a full
fetch (via setFullGuild); with a membership list it scans for the
requested id, building a stub from a matching entry, and falls back to
the full fetch when no entry matches. The result is the current-guild
context entry (none when nothing was stored). -/
def ActiveServerMWcore (guilds : Option (List UserGuild)) (guildID : String) (fetchResult : Option Guild) : Option Guild :=
  match guilds with
  | none => setFullGuild fetchResult
  | some gs =>
    match gs.find? (fun g => g.id == guildID) with
    | some userGuild => some (stubGuild userGuild)
    | none => setFullGuild fetchResult

/-- ActiveServerMW including the numeric validation: a path id that does
not parse as a 64-bit integer aborts enrichment (no current guild is
stored); the inner handler runs in every case (via the deferred call). -/
def ActiveServerMW (idIsNumeric : Bool) (guilds : Option (List UserGuild)) (guildID : String) (fetchResult : Option Guild) : Option Guild :=
  if idIsNumeric then ActiveServerMWcore guilds guildID fetchResult
  else none

/-- A rendered HTTP response: accumulated headers and a body. -/
structure Resp where
  headers : List (String × String)
  body : String
deriving DecidableEq

/-- MiscMiddleware: while the process is not accepting requests it
writes the shutdown notice and returns at once — before the header line
runs — so that early response carries no Strict-Transport-Security
header; otherwise it sets the header and serves the inner handler. -/
def MiscMiddleware (acceptingRequests : Bool) (inner : Resp) : Resp :=
  if acceptingRequests then
    { headers := ("Strict-Transport-Security", "max-age=31536000") :: inner.headers,
      body := inner.body }
  else
    { headers := [], body := "\x7b\"error\":\"Shutting down, try again in a minute\"\x7d" }

/-- A non-nil Go error value as classified by the controller and API
adapters: either a *PublicError carrying a user-facing message, or any
other error carrying an internal message. -/
inductive GoError where
  | public (msg : String)
  | internal (msg : String)
deriving DecidableEq

/-- PublicError.Error(): the literal message for a public error; for any
other error its own message. -/
def errorText : GoError → String
  | GoError.public m => m
  | GoError.internal m => m

/-- A minimal model of the JSON values the API adapter builds. -/
inductive JVal where
  | str (s : String)
  | boolean (b : Bool)
  | obj (fields : List (String × JVal))

/-- What APIHandler passes to the JSON encoder: either a JSON-shaped
value, or a raw Go error value encoded as-is (the code leaves `out` as
the error itself when it is not a *PublicError). -/
inductive BodyVal where
  | json (v : JVal)
  | rawErr (e : GoError)

/-- The response produced by APIHandler: the HTTP status (200 unless
WriteHeader was called) and the encoded body, if any. -/
structure APIResponse where
  status : Nat
  body : Option BodyVal

/-- What the wrapped CustomHandlerFunc returned to APIHandler: a
non-error value, a nil interface (nothing is encoded), or an error-typed
value whose `cast == nil` comparison may hold (modelled as an optional
GoError). -/
inductive HandlerOut where
  | value (v : JVal)
  | nilInterface
  | errVal (e : Option GoError)

/-- APIHandler: a non-error return is encoded as-is with the default
status; an error-typed return always triggers WriteHeader(500), with the
nil comparison producing the ok:true object, a *PublicError producing
the ok:false envelope with its message, and any other error left as the
raw value handed to the JSON encoder. -/
def APIHandler (out : HandlerOut) : APIResponse :=
  match out with
  | HandlerOut.value v => { status := 200, body := some (BodyVal.json v) }
  | HandlerOut.nilInterface => { status := 200, body := none }
  | HandlerOut.errVal e =>
    let newOut : BodyVal :=
      match e with
      | none => BodyVal.json (JVal.obj [("ok", JVal.boolean true)])
      | some (GoError.public m) =>
        BodyVal.json (JVal.obj [("ok", JVal.boolean false), ("error", JVal.str m)])
      | some (GoError.internal m) => BodyVal.rawErr (GoError.internal m)
    { status := 500, body := some newOut }

/-- Modelled from the spec: an Alert is a severity-tagged message queued
for display (the Alert type and its constructors live outside this
file's source). -/
structure Alert where
  severity : String
  message : String
deriving DecidableEq

/-- Modelled from the spec: ErrorAlert tags a message with the error
severity, keeping the text verbatim. -/
def ErrorAlert (msg : String) : Alert :=
  { severity := "danger", message := msg }

/-- A structured log entry as emitted by checkControllerError: the
error's text plus the guild field attached when a guild is active. -/
structure LogEntry where
  errMsg : String
  guildField : Option String
deriving DecidableEq

/-- checkControllerError: a nil error adds nothing and logs nothing; a
*PublicError adds its literal message as an error alert; any other error
adds the fixed generic alert; every non-nil error is logged with the
active guild's id attached when one is present. -/
def checkControllerError (guild : Option Guild) (data : List Alert) (err : Option GoError) : List Alert × Option LogEntry :=
  match err with
  | none => (data, none)
  | some e =>
    let alertMsg : String :=
      match e with
      | GoError.public m => m
      | GoError.internal _ => "An error occured... Contact support."
    (data ++ [ErrorAlert alertMsg],
     some { errMsg := errorText e, guildField := guild.map Guild.id })

/-- The context state FormParserMW leaves for its inner handler: the
template alerts, the stored ok flag, the stored decoded value, and
whether the inner handler was invoked. -/
structure FormCtx (α : Type) where
  alerts : List Alert
  ok : Bool
  form : α
  innerInvoked : Bool

/-- FormParserMW after a successful body parse: `decoded` is the
(possibly partially) decoded destination struct and `decodeErr` tells
whether schema decoding failed. On decode failure the generic alert is
added and ok is false, but the inner handler still runs; on success the
domain validation (`validate`, taking and returning the alert list)
decides ok. The decoded value and the ok flag are stored in context
either way. -/
def FormParserMW {α : Type} (tmpl : List Alert) (decoded : α) (decodeErr : Bool)
    (validate : List Alert → α → Bool × List Alert) : FormCtx α :=
  if decodeErr then
    { alerts := tmpl ++ [ErrorAlert ("Failed parsing form")],
      ok := false, form := decoded, innerInvoked := true }
  else
    let r := validate tmpl decoded
    { alerts := r.2, ok := r.1, form := decoded, innerInvoked := true }

/-- The observable actions of the form-saving wrappers, in execution
order: running the deferred extra handler, calling Save / the main
handler (the persistence step), adding alerts, appending an audit-log
entry. -/
inductive SaveEvent where
  | extra
  | save (guildID : String)
  | mainCall
  | alertAdded (a : Alert)
  | successAlert
  | auditLog (guildID : String) (msg : String)
deriving DecidableEq

/-- The body of SimpleConfigSaverHandler (inside FormParserMW): the
extra handler, when supplied, is deferred before the ok check and so
always runs; persistence (form.Save) runs only when ok is true;
CheckErr adds an error alert on save failure, and on save success the
success alert and — when a user is in context — an audit-log entry are
added. `saveResult` is Save's error (none on success) and `user` the
optional context user's presence. -/
def SimpleConfigSaverHandler (hasExtraHandler : Bool) (ok : Bool) (guildID : String)
    (configName : String) (saveResult : Option String) (userPresent : Bool) : List SaveEvent :=
  let deferred : List SaveEvent := if hasExtraHandler then [SaveEvent.extra] else []
  if !ok then deferred
  else
    (SaveEvent.save guildID ::
      (match saveResult with
       | some _ => [SaveEvent.alertAdded (ErrorAlert ("Failed saving config"))]
       | none =>
         SaveEvent.successAlert ::
           (if userPresent then [SaveEvent.auditLog guildID ("Updated " ++ configName ++ " Config.")] else [])))
      ++ deferred

/-- The body of ControllerPostHandler (inside FormParserMW): the extra
handler, when supplied, is deferred before the ok check and so always
runs; the main handler runs only when ok is true; its error goes through
checkControllerError, and a nil error adds the success alert and — when
a user is in context — an audit-log entry. -/
def ControllerPostHandler (hasExtraHandler : Bool) (ok : Bool) (guild : Option Guild)
    (guildID : String) (mainErr : Option GoError) (userPresent : Bool) (logMsg : String) : List SaveEvent :=
  let deferred : List SaveEvent := if hasExtraHandler then [SaveEvent.extra] else []
  if !ok then deferred
  else
    (SaveEvent.mainCall ::
      ((checkControllerError guild [] mainErr).1.map SaveEvent.alertAdded ++
        (match mainErr with
         | none =>
           SaveEvent.successAlert ::
             (if userPresent then [SaveEvent.auditLog guildID logMsg] else [])
         | some _ => [])))
      ++ deferred

lemma botAggregate_fst (memberRoles : List String) :
    ∀ (roles : List Role) (a : Nat) (h : Option Role),
      (roles.foldl (botAggregateStep memberRoles) (a, h)).1 =
        a ||| specCombinedPerms roles memberRoles := by
  intro roles
  induction roles with
  | nil =>
    intro a h
    simp [specCombinedPerms]
  | cons r rs ih =>
    intro a h
    by_cases hm : memberHasRole memberRoles r.id
    · simp only [List.foldl_cons, botAggregateStep, hm, if_true]
      rw [ih]
      simp [specCombinedPerms, List.filter_cons, hm, Nat.lor_assoc]
    · simp only [List.foldl_cons, botAggregateStep, hm, Bool.false_eq_true, if_false]
      rw [ih]
      simp [specCombinedPerms, List.filter_cons, hm]

/-- Claim C1: for every role set and bot role-id list, the aggregated
permission bitmask computed by RequireBotMemberMW equals the bitwise OR
of role.permissions over exactly the roles whose id the bot member
holds, and when the role set is empty no aggregation is performed at all
(no permission value is stored, rather than a zero bitmask). -/
theorem c1_permission_aggregation :
    ∀ (roles : List Role) (memberRoles : List String),
      (RequireBotMemberAgg roles memberRoles).map Prod.fst =
        if roles.isEmpty then none else some (specCombinedPerms roles memberRoles) := by
  intro roles memberRoles
  cases roles with
  | nil => simp [RequireBotMemberAgg]
  | cons r rs =>
    simp only [RequireBotMemberAgg, List.length_cons, List.isEmpty_cons]
    have hlen : ¬ (rs.length + 1 < 1) := by omega
    rw [if_neg hlen]
    simp only [Option.map_some, if_false, Bool.false_eq_true]
    have hfst := botAggregate_fst memberRoles (r :: rs) 0 none
    simp only [botAggregate, Option.map_some']
    rw [hfst]
    simp

lemma geAll_iff (l : List Role) (r : Role) :
    geAll l r = true ↔ ∀ x ∈ l, x.position ≤ r.position := by
  simp [geAll]

lemma find_eq_of_forall_eq {α : Type} (p q : α → Bool) :
    ∀ l : List α, (∀ x ∈ l, p x = q x) → l.find? p = l.find? q := by
  intro l
  induction l with
  | nil => intro _; rfl
  | cons a l ih =>
    intro hpq
    have ha : p a = q a := hpq a (by simp)
    cases hq : q a with
    | true =>
      rw [List.find?_cons_of_pos _ (ha.trans hq), List.find?_cons_of_pos _ hq]
    | false =>
      rw [List.find?_cons_of_neg _ (by simp [ha, hq]), List.find?_cons_of_neg _ (by simp [hq])]
      exact ih (fun x hx => hpq x (by simp [hx]))

lemma firstMax_cons_cons (h r : Role) (l : List Role) :
    firstMax (h :: r :: l) =
      if h.position < r.position then firstMax (r :: l) else firstMax (h :: l) := by
  by_cases hc : h.position < r.position
  · rw [if_pos hc]
    unfold firstMax
    have hnh : ¬ geAll (h :: r :: l) h = true := by
      rw [geAll_iff]
      intro H
      have := H r (by simp)
      omega
    rw [List.find?_cons_of_neg _ hnh]
    apply find_eq_of_forall_eq
    intro y hy
    rw [Bool.eq_iff_iff, geAll_iff, geAll_iff]
    constructor
    · intro H x hx
      exact H x (by simp [List.mem_cons] at hx ⊢; tauto)
    · intro H x hx
      rcases (List.mem_cons.mp hx) with hx' | hx'
      · subst hx'
        have hr : r.position ≤ y.position := H r (by simp)
        omega
      · exact H x hx'
  · rw [if_neg hc]
    have hrh : r.position ≤ h.position := by omega
    have hpq : ∀ y : Role, geAll (h :: r :: l) y = geAll (h :: l) y := by
      intro y
      rw [Bool.eq_iff_iff, geAll_iff, geAll_iff]
      constructor
      · intro H x hx
        rcases (List.mem_cons.mp hx) with hx' | hx'
        · subst hx'; exact H x (by simp)
        · exact H x (by simp [hx'])
      · intro H x hx
        rcases (List.mem_cons.mp hx) with hx' | hx'
        · subst hx'; exact H x (by simp)
        rcases (List.mem_cons.mp hx') with hx2 | hx2
        · subst hx2
          have hh : h.position ≤ y.position := H h (by simp)
          omega
        · exact H x (by simp [hx2])
    unfold firstMax
    rw [find_eq_of_forall_eq _ _ _ (fun x _ => hpq x)]
    cases hQh : geAll (h :: l) h with
    | true =>
      rw [List.find?_cons_of_pos _ hQh, List.find?_cons_of_pos _ hQh]
    | false =>
      have hnQh : ¬ geAll (h :: l) h = true := by simp [hQh]
      rw [List.find?_cons_of_neg _ hnQh, List.find?_cons_of_neg _ hnQh]
      have hnQr : ¬ geAll (h :: l) r = true := by
        rw [geAll_iff]
        intro H
        apply hnQh
        rw [geAll_iff]
        intro x hx
        have hhr : h.position ≤ r.position := H h (by simp)
        have hx2 : x.position ≤ r.position := H x hx
        omega
      rw [List.find?_cons_of_neg _ hnQr]

lemma highestFold_some :
    ∀ (l : List Role) (h : Role), l.foldl highestStep (some h) = firstMax (h :: l) := by
  intro l
  induction l with
  | nil =>
    intro h
    have hp : geAll [h] h = true := by
      rw [geAll_iff]
      intro x hx
      simp at hx
      subst hx
      exact le_refl _
    unfold firstMax
    rw [List.find?_cons_of_pos _ hp]
    rfl
  | cons r l ih =>
    intro h
    rw [List.foldl_cons, firstMax_cons_cons]
    by_cases hc : h.position < r.position
    · rw [if_pos hc]
      have hstep : highestStep (some h) r = some r := by
        simp [highestStep, hc]
      rw [hstep, ih r]
    · rw [if_neg hc]
      have hstep : highestStep (some h) r = some h := by
        simp [highestStep, hc]
      rw [hstep, ih h]

lemma highestFold_none :
    ∀ l : List Role, l.foldl highestStep none = firstMax l := by
  intro l
  cases l with
  | nil => rfl
  | cons r l =>
    rw [List.foldl_cons]
    have hstep : highestStep none r = some r := rfl
    rw [hstep]
    exact highestFold_some l r

lemma botAggregate_snd (memberRoles : List String) :
    ∀ (roles : List Role) (a : Nat) (h : Option Role),
      (roles.foldl (botAggregateStep memberRoles) (a, h)).2 =
        (roles.filter (fun r => memberHasRole memberRoles r.id)).foldl highestStep h := by
  intro roles
  induction roles with
  | nil =>
    intro a h
    rfl
  | cons r rs ih =>
    intro a h
    by_cases hm : memberHasRole memberRoles r.id
    · simp only [List.foldl_cons, botAggregateStep, hm, if_true, List.filter_cons]
      rw [ih]
      rfl
    · simp only [List.foldl_cons, botAggregateStep, hm, Bool.false_eq_true, if_false,
        List.filter_cons]
      rw [ih]

/-- Claim C7: for a fixed iteration order over the guild's role set, the
highest-role selection of RequireBotMemberMW is deterministic: among the
roles the bot member holds, it selects the first-seen role whose position
is strictly greater than every previously seen matching role's position
(equivalently, the first-seen matching role attaining the maximal
position, so on equal positions the earlier-seen role wins). -/
theorem c7_highest_role_deterministic :
    ∀ (roles : List Role) (memberRoles : List String),
      (botAggregate roles memberRoles).2 =
        firstMax (roles.filter (fun r => memberHasRole memberRoles r.id)) := by
  intro roles memberRoles
  unfold botAggregate
  rw [botAggregate_snd]
  exact highestFold_none _

/-- Claim C2: when the active guild already has a populated owner id,
RequireFullGuildMW performs no fetch and leaves every field unchanged;
when the owner id is empty and the fetch succeeds, it copies exactly
ownerID, region and roles from the fetched record into the existing
object (id, name and channels are untouched, the object is updated in
place, never replaced), so a full record is never downgraded to a stub
by this stage. -/
theorem c2_full_guild_upgrade :
    (∀ (g : Guild) (f : Option Guild), g.ownerID ≠ "" →
        RequireFullGuildMW g f =
          { guild := g, outcome := MWOutcome.proceed (), fetched := false })
    ∧ (∀ (g fullGuild : Guild), g.ownerID = "" →
        RequireFullGuildMW g (some fullGuild) =
          { guild := { g with
                        region := fullGuild.region
                        ownerID := fullGuild.ownerID
                        roles := fullGuild.roles },
            outcome := MWOutcome.proceed (), fetched := true }) := by
  constructor
  · intro g f h
    simp [RequireFullGuildMW, h]
  · intro g fullGuild h
    simp [RequireFullGuildMW, h]

/-- Witness for C2 at concrete guilds: one already-full guild is left
untouched with no fetch, and one stub is upgraded in place. -/
theorem c2_full_guild_upgrade_witness :
    RequireFullGuildMW { id := "1", name := "g", ownerID := "o", region := "", roles := [], channels := [] } none =
      { guild := { id := "1", name := "g", ownerID := "o", region := "", roles := [], channels := [] },
        outcome := MWOutcome.proceed (), fetched := false }
    ∧ RequireFullGuildMW { id := "1", name := "g", ownerID := "", region := "", roles := [], channels := [] }
        (some { id := "1", name := "g", ownerID := "o2", region := "eu", roles := [], channels := [] }) =
      { guild := { id := "1", name := "g", ownerID := "o2", region := "eu", roles := [], channels := [] },
        outcome := MWOutcome.proceed (), fetched := true } :=
  ⟨c2_full_guild_upgrade.1 _ none (by decide),
   c2_full_guild_upgrade.2 _ _ (by decide)⟩

/-- Counterexample to claim C3 as stated: a non-public error does not
produce the ok:false envelope with an empty message — APIHandler leaves
the raw error value as the encoder input — and a nil error (the ok:true
no-op success) still gets HTTP status 500, so 500 is not forced only for
non-nil errors. -/
theorem c3_counterexample :
    (APIHandler (HandlerOut.errVal (some (GoError.internal "boom")))).body ≠
        some (BodyVal.json (JVal.obj [("ok", JVal.boolean false), ("error", JVal.str "")]))
    ∧ (APIHandler (HandlerOut.errVal none)).status = 500 := by
  constructor
  · intro h
    simp [APIHandler] at h
  · rfl

/-- Claim C3 amended: a non-error return is the raw value with default
status; any error-typed return forces HTTP 500 (including the nil-error
comparison branch, whose body is the ok:true object); a *PublicError
yields the ok:false envelope with its literal message; any other error
is handed raw to the JSON encoder instead of being enveloped. -/
theorem c3_api_envelope_amended :
    ∀ (v : JVal) (m s : String),
      APIHandler (HandlerOut.value v) = { status := 200, body := some (BodyVal.json v) }
      ∧ APIHandler HandlerOut.nilInterface = { status := 200, body := none }
      ∧ APIHandler (HandlerOut.errVal none) =
          { status := 500, body := some (BodyVal.json (JVal.obj [("ok", JVal.boolean true)])) }
      ∧ APIHandler (HandlerOut.errVal (some (GoError.public m))) =
          { status := 500,
            body := some (BodyVal.json (JVal.obj [("ok", JVal.boolean false), ("error", JVal.str m)])) }
      ∧ APIHandler (HandlerOut.errVal (some (GoError.internal s))) =
          { status := 500, body := some (BodyVal.rawErr (GoError.internal s)) } := by
  intro v m s
  exact ⟨rfl, rfl, rfl, rfl, rfl⟩

/-- Claim C4: a failed form decode attaches the generic alert, stores
ok=false, and still invokes the inner handler; both persisting wrappers
skip persistence (Save / the main handler) whenever the stored ok flag
is false; and a successful decode stores the typed value with the ok
flag decided by the domain validation (so passing validation yields
ok=true). -/
theorem c4_form_pipeline :
    ∀ {α : Type} (tmpl : List Alert) (decoded : α)
      (validate : List Alert → α → Bool × List Alert)
      (hasExtra : Bool) (gid nm : String) (saveRes : Option String) (userPresent : Bool)
      (guild : Option Guild) (mainErr : Option GoError) (logMsg : String),
      (ErrorAlert ("Failed parsing form") ∈ (FormParserMW tmpl decoded true validate).alerts
        ∧ (FormParserMW tmpl decoded true validate).ok = false
        ∧ (FormParserMW tmpl decoded true validate).innerInvoked = true)
      ∧ decide (SaveEvent.save gid ∈ SimpleConfigSaverHandler hasExtra false gid nm saveRes userPresent) = false
      ∧ decide (SaveEvent.mainCall ∈ ControllerPostHandler hasExtra false guild gid mainErr userPresent logMsg) = false
      ∧ ((FormParserMW tmpl decoded false validate).ok = (validate tmpl decoded).1
        ∧ (FormParserMW tmpl decoded false validate).form = decoded) := by
  intro α tmpl decoded validate hasExtra gid nm saveRes userPresent guild mainErr logMsg
  refine ⟨⟨?_, rfl, rfl⟩, ?_, ?_, rfl, rfl⟩
  · simp [FormParserMW]
  · rw [decide_eq_false_iff_not]
    cases hasExtra <;> simp [SimpleConfigSaverHandler]
  · rw [decide_eq_false_iff_not]
    cases hasExtra <;> simp [ControllerPostHandler]

/-- Claim C5: for a numeric organization id, when no membership list is
in context or no membership entry matches the id, ActiveServerMW falls
back to fetching the full guild and stores exactly the fetch result as
the active organization — in particular a failed fetch leaves no
current-guild entry in the context. -/
theorem c5_active_server_fallback :
    (∀ (guildID : String) (f : Option Guild),
        ActiveServerMW true none guildID f = f)
    ∧ (∀ (gs : List UserGuild) (guildID : String) (f : Option Guild),
        gs.find? (fun g => g.id == guildID) = none →
        ActiveServerMW true (some gs) guildID f = f) := by
  constructor
  · intro guildID f
    cases f <;> simp [ActiveServerMW, ActiveServerMWcore, setFullGuild]
  · intro gs guildID f h
    cases f <;> simp [ActiveServerMW, ActiveServerMWcore, h, setFullGuild]

/-- Witness for C5 at a concrete membership list not containing the
requested id: the fallback stores the fetched guild, and with a failed
fetch stores nothing. -/
theorem c5_active_server_fallback_witness :
    ActiveServerMW true (some [{ id := "123", name := "a" }]) "456"
        (some { id := "456", name := "b", ownerID := "o", region := "", roles := [], channels := [] }) =
      some { id := "456", name := "b", ownerID := "o", region := "", roles := [], channels := [] }
    ∧ ActiveServerMW true (some [{ id := "123", name := "a" }]) "456" none = none :=
  ⟨c5_active_server_fallback.2 _ "456" _ (by decide),
   c5_active_server_fallback.2 _ "456" none (by decide)⟩

/-- Claim C6: checkControllerError surfaces a *PublicError's literal
message verbatim as an error alert; any other non-nil error adds exactly
the fixed generic alert; every non-nil error is logged with the active
guild's id attached when one is present in context; a nil error adds
nothing. -/
theorem c6_controller_error_classification :
    ∀ (guild : Option Guild) (data : List Alert) (m s : String),
      checkControllerError guild data (some (GoError.public m)) =
        (data ++ [ErrorAlert m], some { errMsg := m, guildField := guild.map Guild.id })
      ∧ checkControllerError guild data (some (GoError.internal s)) =
        (data ++ [ErrorAlert ("An error occured... Contact support.")],
         some { errMsg := s, guildField := guild.map Guild.id })
      ∧ checkControllerError guild data none = (data, none) := by
  intro guild data m s
  exact ⟨rfl, rfl, rfl⟩

/-- Counterexample to claim C8 as stated: the early-exit response
written while the process is not accepting requests carries no
Strict-Transport-Security header — MiscMiddleware returns before the
header line runs. -/
theorem c8_counterexample :
    ("Strict-Transport-Security", "max-age=31536000") ∉
      (MiscMiddleware false { headers := [], body := "x" }).headers := by
  simp [MiscMiddleware]

/-- Claim C8 amended: every response produced while the process accepts
requests carries Strict-Transport-Security: max-age=31536000; the
early-exit shutdown response is the exception and carries no headers at
all. -/
theorem c8_hsts_amended :
    ∀ inner : Resp,
      ("Strict-Transport-Security", "max-age=31536000") ∈ (MiscMiddleware true inner).headers
      ∧ (MiscMiddleware false inner).headers = [] := by
  intro inner
  exact ⟨by simp [MiscMiddleware], rfl⟩

/-- Claim C9: a non-nil extra handler given to SimpleConfigSaverHandler
or ControllerPostHandler is always invoked before the wrapper returns —
its call is deferred before the ok check, so it runs also when the form
outcome is false and when the main handler or Save errors. -/
theorem c9_extra_handler_always_runs :
    ∀ (ok : Bool) (gid nm : String) (saveRes : Option String) (userPresent : Bool)
      (guild : Option Guild) (mainErr : Option GoError) (logMsg : String),
      SaveEvent.extra ∈ SimpleConfigSaverHandler true ok gid nm saveRes userPresent
      ∧ SaveEvent.extra ∈ ControllerPostHandler true ok guild gid mainErr userPresent logMsg := by
  intro ok gid nm saveRes userPresent guild mainErr logMsg
  constructor
  · cases ok
    · simp [SimpleConfigSaverHandler]
    · cases saveRes <;> cases userPresent <;> simp [SimpleConfigSaverHandler]
  · cases ok
    · simp [ControllerPostHandler]
    · cases mainErr <;> cases userPresent <;> simp [ControllerPostHandler]

/-- Claim C10: RequireGuildChannelsMiddleware and RequireFullGuildMW
read the current guild with an unchecked type assertion: with no guild
in context the assertion's failure branch (a panic) is taken; under the
precondition that RequireActiveServer let the request through — which
happens exactly when a guild is stored — the panic branch is
unreachable. -/
theorem c10_type_assert_guard :
    (∀ f : Option Guild,
        RequireFullGuildMWentry none f =
          MWOutcome.goPanic ("interface conversion on nil current guild"))
    ∧ (∀ ch : Option (List String),
        RequireGuildChannelsMiddleware none ch =
          MWOutcome.goPanic ("interface conversion on nil current guild"))
    ∧ (∀ (cur f : Option Guild) (ch : Option (List String)),
        RequireActiveServer cur = MWOutcome.proceed () →
        isGoPanic (RequireFullGuildMWentry cur f) = false
        ∧ isGoPanic (RequireGuildChannelsMiddleware cur ch) = false) := by
  refine ⟨fun f => rfl, fun ch => rfl, ?_⟩
  intro cur f ch h
  cases cur with
  | none => simp [RequireActiveServer] at h
  | some g =>
    constructor
    · cases f with
      | none =>
        by_cases hg : g.ownerID ≠ "" <;>
          simp [RequireFullGuildMWentry, guildTypeAssert, RequireFullGuildMW, hg, isGoPanic]
      | some fullGuild =>
        by_cases hg : g.ownerID ≠ "" <;>
          simp [RequireFullGuildMWentry, guildTypeAssert, RequireFullGuildMW, hg, isGoPanic]
    · cases ch <;> simp [RequireGuildChannelsMiddleware, guildTypeAssert, isGoPanic]

/-- Witness for C10 at a concrete context holding a guild: the gate
passes and neither middleware panics. -/
theorem c10_type_assert_guard_witness :
    isGoPanic (RequireFullGuildMWentry
        (some { id := "1", name := "g", ownerID := "o", region := "", roles := [], channels := [] }) none) = false
    ∧ isGoPanic (RequireGuildChannelsMiddleware
        (some { id := "1", name := "g", ownerID := "o", region := "", roles := [], channels := [] }) none) = false :=
  c10_type_assert_guard.2.2
    (some { id := "1", name := "g", ownerID := "o", region := "", roles := [], channels := [] })
    none none (by decide)

end Middleware
